import Mathlib

/-!
Shallow embedding of the AppImage installation core of `appimgdmg`
(`src/appimg/installed.py`, `src/appimg/appimage.py`, `src/appimg/installer.py`)
and proofs about the spec's claims over it.

The ledger (`InstalledAppsManager`) keeps its records in the in-memory list
`self.apps`; every mutator rewrites that list and then writes the full
snapshot to disk.  The embedding models the record list directly and the
load path as a function of the parsed content of the backing file.
-/

namespace Appimgdmg

/-! Data model and string primitives. -/

/-- Ledger record: the `InstalledApp` dataclass of `src/appimg/installed.py`. -/
structure InstalledApp where
  name : String
  version : String
  source_path : String
  install_path : String
  icon_name : String
  categories : List String
  install_date : String
  comment : Option String := none
  desktop_file : Option String := none
deriving DecidableEq, Repr

/-- Python `str.lower()` restricted to the ASCII case mapping that Lean's
`Char.toLower` implements (all strings compared by the ledger code are ASCII
names and paths). -/
def pyLower (s : String) : String :=
  ⟨s.data.map Char.toLower⟩

/-- Splitting a character list at every occurrence of `sep`, keeping empty
segments: the semantics of Python `str.split(sep)` for a one-character
separator. -/
def splitChar (sep : Char) : List Char → List (List Char)
  | [] => [[]]
  | c :: rest =>
    if c = sep then [] :: splitChar sep rest
    else
      match splitChar sep rest with
      | [] => [[c]]
      | h :: t => (c :: h) :: t

/-- Python `s.split(sep)` for a one-character separator. -/
def pySplit (sep : Char) (s : String) : List String :=
  (splitChar sep s.data).map (fun l => ⟨l⟩)

/-- Python `str.strip()` (with Lean's `Char.isWhitespace` standing in for
Python's whitespace class; they agree on the ASCII whitespace that desktop
descriptor values contain). -/
def pyStrip (s : String) : String :=
  ⟨((s.data.dropWhile Char.isWhitespace).reverse.dropWhile Char.isWhitespace).reverse⟩

/-- Python substring test `pat in s`. -/
def strContains (s pat : String) : Bool :=
  decide (pat.data <:+: s.data)

/-- Model of `pathlib.Path(s).name`: the last path component, after pure-path
normalisation (repeated separators and single-dot components dropped). -/
def pathName (s : String) : String :=
  ((pySplit '/' s).filter (fun part => part != "" && part != ".")).getLastD ""

/-! Ledger operations (`InstalledAppsManager`). -/

/-- `InstalledAppsManager.add`: drop any record with the same `install_path`,
then append the new record (the subsequent registry save does not change the
in-memory list). -/
def add (apps : List InstalledApp) (app : InstalledApp) : List InstalledApp :=
  (apps.filter (fun a => a.install_path != app.install_path)) ++ [app]

/-- `InstalledAppsManager.remove`: keep the records whose `install_path`
differs from the argument. -/
def remove (apps : List InstalledApp) (install_path : String) : List InstalledApp :=
  apps.filter (fun a => a.install_path != install_path)

/-- The comparison `sorted(self.apps, key=lambda a: a.install_date, reverse=True)`
sorts by: `a` may precede `b` exactly when `b`'s date is not above `a`'s. -/
def dateDesc (a b : InstalledApp) : Prop :=
  b.install_date ≤ a.install_date

instance : DecidableRel dateDesc := fun a b =>
  inferInstanceAs (Decidable (b.install_date ≤ a.install_date))

instance : IsTotal InstalledApp dateDesc :=
  ⟨fun a b => le_total b.install_date a.install_date⟩

instance : IsTrans InstalledApp dateDesc :=
  ⟨fun _ _ _ hab hbc => le_trans hbc hab⟩

/-- `InstalledAppsManager.get_all`: all records sorted by `install_date`,
newest first.  CPython's `sorted(..., reverse=True)` is the stable descending
sort, which the stable `insertionSort` under `dateDesc` realises. -/
def get_all (apps : List InstalledApp) : List InstalledApp :=
  List.insertionSort dateDesc apps

/-- `InstalledAppsManager.get_by_name`: first record (in stored order) whose
lowercased name equals the lowercased query, if any. -/
def get_by_name (apps : List InstalledApp) (name : String) : Option InstalledApp :=
  apps.find? (fun app => pyLower app.name == pyLower name)

/-- `InstalledAppsManager.is_installed`: whether some record's lowercased name
equals the lowercased query. -/
def is_installed (apps : List InstalledApp) (name : String) : Bool :=
  apps.any (fun app => pyLower app.name == pyLower name)

/-- `InstalledAppsManager.get_by_filename`: first record whose
`Path(install_path).name` equals the query, if any. -/
def get_by_filename (apps : List InstalledApp) (filename : String) : Option InstalledApp :=
  apps.find? (fun app => pathName app.install_path == filename)

/-- No two ledger records share an `install_path`. -/
def pathsNodup (apps : List InstalledApp) : Prop :=
  (apps.map (fun a => a.install_path)).Nodup

instance (apps : List InstalledApp) : Decidable (pathsNodup apps) :=
  inferInstanceAs (Decidable (List.Nodup _))

/-! Descriptor parsing (`src/appimg/appimage.py`). -/

/-- Category extraction of `AppImageParser._parse_desktop_file`: the
comprehension over `entry.get("Categories", "").split(";")` keeping the
stripped segments that are non-empty. -/
def parseCategories (s : String) : List String :=
  ((pySplit ';' s).filter (fun c => pyStrip c != "")).map pyStrip

/-- Lookup in a parsed `[Desktop Entry]` section with a fallback:
`entry.get(key, fallback)` under `parser.optionxform = str`, so keys are
case-sensitive (the parser rejects duplicate keys, hence first-binding
lookup is exact). -/
def sectionGetD (entry : List (String × String)) (key fallback : String) : String :=
  (entry.lookup key).getD fallback

/-- The dictionary `_parse_desktop_file` returns, minus the icon-resolution
and raw-content bookkeeping that no claim consults.  Every field of the
literal is always present, in particular the `"name"` key is always bound
(to `entry.get("Name", "")`). -/
structure DesktopInfo where
  name : String
  exec : String
  icon : String
  categories : List String
  comment : String
deriving DecidableEq, Repr

/-- `AppImageParser._parse_desktop_file` on the primary section's bindings. -/
def parseDesktopFile (entry : List (String × String)) : DesktopInfo :=
  { name := sectionGetD entry "Name" ""
  , exec := sectionGetD entry "Exec" ""
  , icon := sectionGetD entry "Icon" ""
  , categories := parseCategories (sectionGetD entry "Categories" "")
  , comment := sectionGetD entry "Comment" "" }

/-- The `name` that `AppImageParser.parse` stores in its result:
`desktop_info.get("name", self.appimage_path.stem)`.  Because the dict built
by `_parse_desktop_file` always carries the key `"name"`, the `stem` default
of that `dict.get` never fires and the value is the dict entry itself. -/
def parseInfoName (entry : List (String × String)) (stem : String) : String :=
  (parseDesktopFile entry).name

/-! Extraction (`AppImageParser._extract_appimage`). -/

/-- Errors an extraction can raise.  `runtimeError` is Python's
`RuntimeError`, `permissionError` its `PermissionError`. -/
inductive PyErr where
  | runtimeError (msg : String)
  | permissionError (msg : String)
deriving DecidableEq, Repr

/-- The environment facts `_extract_appimage` branches on: whether
`os.access(path, X_OK)` holds, whether `chmod` raises `PermissionError`
(with its message), and the self-extraction subprocess outcome. -/
structure ExtractEnv where
  isExecutable : Bool
  chmodPermissionDenied : Bool
  chmodMsg : String
  extractReturncode : Int
  extractStderr : String
deriving DecidableEq, Repr

/-- Control flow of `_extract_appimage`: a failing `chmod` has its
`PermissionError` caught and re-raised as a `RuntimeError`; a non-zero
self-extraction exit becomes a `RuntimeError` as well. -/
def extractAppimage (env : ExtractEnv) : Except PyErr Unit :=
  if !env.isExecutable && env.chmodPermissionDenied then
    .error (.runtimeError ("Cannot make AppImage executable: " ++ env.chmodMsg))
  else if env.extractReturncode != 0 then
    .error (.runtimeError ("Failed to extract AppImage: " ++ env.extractStderr))
  else .ok ()

/-- Whether an extraction outcome is a raised `PermissionError`. -/
def raisesPermissionError : Except PyErr Unit → Bool
  | .error (.permissionError _) => true
  | _ => false

/-! Sandbox detection and Exec-line generation
(`AppImageInstaller._is_electron_app`, `_create_desktop_entry`). -/

/-- Outcome of the sandbox probe `subprocess.run([appimage, "--version"],
capture_output=True, timeout=10)`: completion with an exit code and a
decoded diagnostic stream, a timeout, or any other exception. -/
inductive ProbeOutcome where
  | completed (returncode : Int) (stderr : String)
  | timedOut
  | exception
deriving DecidableEq, Repr

/-- `_is_electron_app`: lowercase the decoded diagnostic stream and look for
the sandbox/setuid/namespace markers regardless of exit code; the
exit-code-guarded repetition of the same test is embedded as written.
Timeouts and other probe exceptions resolve to not-detected. -/
def isElectronApp : ProbeOutcome → Bool
  | .completed returncode stderr =>
    let low := pyLower stderr
    if strContains low "sandbox" || strContains low "setuid" ||
        strContains low "namespace" then true
    else if returncode != 0 then
      if strContains low "sandbox" || strContains low "setuid" ||
          strContains low "namespace" then true
      else false
    else false
  | .timedOut => false
  | .exception => false

/-- The `Exec=` value `_create_desktop_entry` writes, given the already
shell-quoted install path (`shlex.quote(str(appimage_path))`). -/
def execField (quotedPath : String) (probe : ProbeOutcome) : String :=
  if isElectronApp probe then quotedPath ++ " --no-sandbox" else quotedPath

/-- The full `Exec=` line of the generated desktop-launcher descriptor. -/
def execLine (quotedPath : String) (probe : ProbeOutcome) : String :=
  "Exec=" ++ execField quotedPath probe

/-! Registry loading (`InstalledAppsManager._load_registry`). -/

/-- A parsed JSON document, as `json.loads` yields it (registry files carry
no floats, so numbers are integral). -/
inductive JValue where
  | null
  | bool (b : Bool)
  | num (n : Int)
  | str (s : String)
  | arr (elems : List JValue)
  | obj (fields : List (String × JValue))

/-- The exceptions `_load_registry` can meet: a `json.JSONDecodeError`, a
`TypeError`, or the `AttributeError` from calling `.get` on a non-dict. -/
inductive PyExc where
  | jsonDecodeError
  | typeError
  | attributeError
deriving DecidableEq, Repr

/-- `data.get(key, fallback)` on a parsed JSON object (`json.loads` yields
key-unique dicts, so first-binding lookup is exact). -/
def dictGetD (fields : List (String × JValue)) (key : String)
    (fallback : JValue) : JValue :=
  (fields.lookup key).getD fallback

/-- Python iteration over the `apps` value: lists yield their elements,
strings their one-character substrings, dicts their keys; `None`, booleans
and numbers are not iterable and raise `TypeError`. -/
def iterElems : JValue → Except PyExc (List JValue)
  | .arr xs => .ok xs
  | .str s => .ok (s.data.map (fun c => .str ⟨[c]⟩))
  | .obj fields => .ok (fields.map (fun kv => .str kv.1))
  | _ => .error .typeError

/-- A JSON string value. -/
def jStr? : JValue → Option String
  | .str s => some s
  | _ => none

/-- A JSON array of strings. -/
def jStrList? : JValue → Option (List String)
  | .arr xs => xs.mapM jStr?
  | _ => none

/-- A JSON string or null, for the optional dataclass fields. -/
def jOptStr? : JValue → Option (Option String)
  | .null => some none
  | .str s => some (some s)
  | _ => none

/-- The keyword names `InstalledApp(**app)` accepts. -/
def allowedKeys : List String :=
  ["name", "version", "source_path", "install_path", "icon_name",
   "categories", "install_date", "comment", "desktop_file"]

/-- `InstalledApp(**app)` on one parsed record object: every key must be a
known field name and every non-defaulted field must be present, else
`TypeError`.  (CPython checks only the keyword names, not the value types;
requiring the declared types here only narrows the accepted inputs, and
every claim is settled inside that narrower set.) -/
def buildApp (fields : List (String × JValue)) : Option InstalledApp := do
  guard (fields.all (fun kv => allowedKeys.contains kv.1))
  let name ← (fields.lookup "name").bind jStr?
  let version ← (fields.lookup "version").bind jStr?
  let source_path ← (fields.lookup "source_path").bind jStr?
  let install_path ← (fields.lookup "install_path").bind jStr?
  let icon_name ← (fields.lookup "icon_name").bind jStr?
  let categories ← (fields.lookup "categories").bind jStrList?
  let install_date ← (fields.lookup "install_date").bind jStr?
  let comment ← match fields.lookup "comment" with
    | none => some none
    | some v => jOptStr? v
  let desktop_file ← match fields.lookup "desktop_file" with
    | none => some none
    | some v => jOptStr? v
  pure ⟨name, version, source_path, install_path, icon_name, categories,
    install_date, comment, desktop_file⟩

/-- `InstalledApp(**app)` as the comprehension body: a non-object or an
object that does not fit the signature raises `TypeError`. -/
def appFromJson : JValue → Except PyExc InstalledApp
  | .obj fields =>
    match buildApp fields with
    | some app => .ok app
    | none => .error .typeError
  | _ => .error .typeError

/-- The comprehension `[InstalledApp(**app) for app in ...]`: left to right,
stopping at the first raising element. -/
def appsFromJson : List JValue → Except PyExc (List InstalledApp)
  | [] => .ok []
  | v :: rest =>
    match appFromJson v with
    | .error e => .error e
    | .ok app =>
      match appsFromJson rest with
      | .error e => .error e
      | .ok apps => .ok (app :: apps)

/-- The body of `_load_registry`'s `try` block, over the outcome of
`json.loads` (`none` models a decode failure): `data.get("apps", [])` on a
non-dict raises `AttributeError`, then the comprehension is run over the
`apps` value. -/
def loadRegistryRaw : Option JValue → Except PyExc (List InstalledApp)
  | none => .error .jsonDecodeError
  | some (.obj fields) =>
    match iterElems (dictGetD fields "apps" (.arr [])) with
    | .error e => .error e
    | .ok elems => appsFromJson elems
  | some _ => .error .attributeError

/-- `_load_registry` with its `except (json.JSONDecodeError, TypeError)`
clause: those two exceptions reset the ledger to empty, anything else
propagates. -/
def loadRegistry (parsed : Option JValue) : Except PyExc (List InstalledApp) :=
  match loadRegistryRaw parsed with
  | .ok apps => .ok apps
  | .error .jsonDecodeError => .ok []
  | .error .typeError => .ok []
  | .error e => .error e

/-! Helper lemmas. -/

lemma filter_ne_path_eq_nil (apps : List InstalledApp) (q : String) :
    (apps.filter (fun a => a.install_path != q)).filter
      (fun a => a.install_path == q) = [] := by
  rw [List.filter_eq_nil_iff]
  intro a ha
  have h := List.of_mem_filter ha
  simp only [bne_iff_ne, ne_eq] at h
  simp [h]

lemma map_path_filter_sublist (apps : List InstalledApp) (p : InstalledApp → Bool) :
    List.Sublist ((apps.filter p).map (fun a => a.install_path))
      (apps.map (fun a => a.install_path)) :=
  (List.filter_sublist apps).map _

lemma filter_date_orderedInsert (a : InstalledApp) (l : List InstalledApp) (d : String) :
    (List.orderedInsert dateDesc a l).filter (fun x => x.install_date == d) =
      if a.install_date = d then
        a :: l.filter (fun x => x.install_date == d)
      else l.filter (fun x => x.install_date == d) := by
  rw [List.orderedInsert_eq_take_drop, List.filter_append]
  by_cases h : a.install_date = d
  · have hnil : (l.takeWhile fun b => ¬dateDesc a b).filter
        (fun x => x.install_date == d) = [] := by
      rw [List.filter_eq_nil_iff]
      intro b hb
      have hmem := List.mem_takeWhile_imp hb
      have hne : ¬dateDesc a b := by simpa using hmem
      have hlt : a.install_date < b.install_date := lt_of_not_le hne
      have : b.install_date ≠ d := fun hbd => absurd (hbd ▸ hlt) (h ▸ lt_irrefl _)
      simp [this]
    rw [hnil, if_pos h]
    conv_rhs =>
      rw [← List.takeWhile_append_dropWhile
        (p := fun b => decide ¬dateDesc a b) (l := l)]
    rw [List.filter_append, hnil]
    simp [h]
  · rw [if_neg h]
    conv_rhs =>
      rw [← List.takeWhile_append_dropWhile
        (p := fun b => decide ¬dateDesc a b) (l := l)]
    rw [List.filter_append]
    simp [h]

lemma filter_date_insertionSort (l : List InstalledApp) (d : String) :
    (List.insertionSort dateDesc l).filter (fun x => x.install_date == d) =
      l.filter (fun x => x.install_date == d) := by
  induction l with
  | nil => rfl
  | cons a l ih =>
    rw [List.insertionSort, filter_date_orderedInsert]
    by_cases h : a.install_date = d <;> simp [h, ih, List.filter_cons]

lemma pyLower_infix_of_lower_closed {pat s : String}
    (hpat : pat.data.map Char.toLower = pat.data)
    (h : pat.data <:+: s.data) : pat.data <:+: (pyLower s).data := by
  obtain ⟨u, t, hut⟩ := h
  refine ⟨u.map Char.toLower, t.map Char.toLower, ?_⟩
  show _ = (s.data.map Char.toLower)
  rw [← hut]
  simp [hpat]

lemma appFromJson_error_typeError {v : JValue} {e : PyExc}
    (h : appFromJson v = .error e) : e = .typeError := by
  cases v <;> simp only [appFromJson] at h <;> try exact (Except.error.injEq _ _).mp h |>.symm ▸ rfl
  case obj fields =>
    cases hb : buildApp fields <;> rw [hb] at h
    · exact ((Except.error.injEq _ _).mp h).symm
    · exact absurd h (by simp)

lemma appsFromJson_error_typeError {l : List JValue} {e : PyExc}
    (h : appsFromJson l = .error e) : e = .typeError := by
  induction l with
  | nil => exact absurd h (by simp [appsFromJson])
  | cons v rest ih =>
    rw [appsFromJson] at h
    cases hv : appFromJson v <;> rw [hv] at h
    · exact (appFromJson_error_typeError (hv.trans (by rw [(Except.error.injEq _ _).mp h])))
    · cases hr : appsFromJson rest <;> rw [hr] at h
      · exact ih (hr.trans (by rw [(Except.error.injEq _ _).mp h]))
      · exact absurd h (by simp)

lemma iterElems_error_typeError {v : JValue} {e : PyExc}
    (h : iterElems v = .error e) : e = .typeError := by
  cases v <;> simp only [iterElems] at h <;>
    first
    | exact ((Except.error.injEq _ _).mp h).symm
    | exact absurd h (by simp)

lemma loadRegistryRaw_obj_error_typeError {fields : List (String × JValue)}
    {e : PyExc} (h : loadRegistryRaw (some (.obj fields)) = .error e) :
    e = .typeError := by
  rw [loadRegistryRaw] at h
  cases hi : iterElems (dictGetD fields "apps" (.arr [])) <;> rw [hi] at h
  · exact iterElems_error_typeError (hi.trans (by rw [(Except.error.injEq _ _).mp h]))
  · exact appsFromJson_error_typeError h

/-! Theorems settling the claims. -/

/-- C1. After `add app`, the ledger holds exactly the one record `app` at
`app.install_path`; `install_path`-uniqueness is preserved by `add` and by
`remove`. -/
theorem add_unique_install_path (apps : List InstalledApp) (app : InstalledApp) :
    (add apps app).filter (fun a => a.install_path == app.install_path) = [app] ∧
    (pathsNodup apps → pathsNodup (add apps app)) ∧
    (∀ p, pathsNodup apps → pathsNodup (remove apps p)) := by
  refine ⟨?_, ?_, ?_⟩
  · rw [add, List.filter_append, filter_ne_path_eq_nil]
    simp
  · intro h
    rw [add, pathsNodup, List.map_append, List.nodup_append]
    refine ⟨(map_path_filter_sublist apps _).nodup h, List.nodup_singleton _, ?_⟩
    intro x hx
    simp only [List.mem_map] at hx
    obtain ⟨a, ha, rfl⟩ := hx
    have h2 := List.of_mem_filter ha
    simp only [bne_iff_ne, ne_eq] at h2
    simp [h2]
  · intro p h
    exact (map_path_filter_sublist apps _).nodup h

/-- C1 witness: a concrete two-record ledger where the second add replaces. -/
theorem add_unique_install_path_witness :
    pathsNodup [⟨"A", "1", "/s/x", "/home/u/Applications/x.AppImage", "x", [],
        "2024-01-01T10:00:00", none, none⟩] ∧
    pathsNodup
      (add [⟨"A", "1", "/s/x", "/home/u/Applications/x.AppImage", "x", [],
          "2024-01-01T10:00:00", none, none⟩]
        ⟨"A2", "2", "/s/x2", "/home/u/Applications/x.AppImage", "x", [],
          "2024-02-01T10:00:00", none, none⟩) :=
  ⟨by decide,
   (add_unique_install_path
      [⟨"A", "1", "/s/x", "/home/u/Applications/x.AppImage", "x", [],
        "2024-01-01T10:00:00", none, none⟩]
      ⟨"A2", "2", "/s/x2", "/home/u/Applications/x.AppImage", "x", [],
        "2024-02-01T10:00:00", none, none⟩).2.1 (by decide)⟩

/-- C10. `remove` is idempotent, leaves a ledger without the path untouched,
and returns the sublist of exactly the records with a different
`install_path`, in their original order. -/
theorem remove_idempotent (apps : List InstalledApp) (p : String) :
    remove (remove apps p) p = remove apps p ∧
    ((∀ a ∈ apps, a.install_path ≠ p) → remove apps p = apps) ∧
    List.Sublist (remove apps p) apps ∧
    (∀ a, a ∈ remove apps p ↔ (a ∈ apps ∧ a.install_path ≠ p)) := by
  refine ⟨?_, ?_, List.filter_sublist apps, ?_⟩
  · unfold remove
    rw [List.filter_filter]
    simp
  · intro h
    rw [remove, List.filter_eq_self]
    intro a ha
    simpa using h a ha
  · intro a
    rw [remove, List.mem_filter]
    simp

/-- C10 witness: removing an absent path from a concrete one-record ledger
changes nothing. -/
theorem remove_idempotent_witness :
    remove [⟨"A", "1", "/s/x", "/home/u/Applications/x.AppImage", "x", [],
        "2024-01-01T10:00:00", none, none⟩] "/elsewhere" =
      [⟨"A", "1", "/s/x", "/home/u/Applications/x.AppImage", "x", [],
        "2024-01-01T10:00:00", none, none⟩] :=
  (remove_idempotent
      [⟨"A", "1", "/s/x", "/home/u/Applications/x.AppImage", "x", [],
        "2024-01-01T10:00:00", none, none⟩] "/elsewhere").2.1 (by decide)

/-- C6. `get_all` returns the same records, ordered by `install_date`
descending, and stably: the records carrying any fixed timestamp appear in
their original stored order. -/
theorem get_all_sorted_stable (apps : List InstalledApp) :
    List.Perm (get_all apps) apps ∧
    List.Sorted dateDesc (get_all apps) ∧
    (∀ d, (get_all apps).filter (fun a => a.install_date == d) =
      apps.filter (fun a => a.install_date == d)) :=
  ⟨List.perm_insertionSort dateDesc apps,
   List.sorted_insertionSort dateDesc apps,
   fun d => filter_date_insertionSort apps d⟩

/-- C9. `is_installed` answers true exactly when `get_by_name` finds a
record; both use the lowercased exact name match, and `get_by_name` returns
the first match in stored order (the head of the matching sublist). -/
theorem is_installed_iff_get_by_name (apps : List InstalledApp) (name : String) :
    (is_installed apps name = true ↔ (get_by_name apps name).isSome = true) ∧
    get_by_name apps name =
      (apps.filter (fun a => pyLower a.name == pyLower name)).head? := by
  constructor
  · simp [is_installed, get_by_name, List.any_eq_true]
  · rw [get_by_name, List.filter_head?]

/-- C7 (as stated) fails: a prior record with a different `install_path` but
the same basename shadows the newly added one in `get_by_filename`. -/
theorem get_by_filename_add_counterexample :
    get_by_filename
      (add [⟨"A", "1", "/src/a", "/home/u/Applications/foo.AppImage", "a", [],
          "2024-01-01T00:00:00", none, none⟩]
        ⟨"B", "1", "/src/b", "/opt/apps/foo.AppImage", "b", [],
          "2024-02-01T00:00:00", none, none⟩)
      (pathName "/opt/apps/foo.AppImage") ≠
    some ⟨"B", "1", "/src/b", "/opt/apps/foo.AppImage", "b", [],
      "2024-02-01T00:00:00", none, none⟩ := by
  decide

/-- C7 amended: after `add r`, looking up the basename of `r.install_path`
returns `r`, provided no prior record reaches that basename from a different
`install_path`. -/
theorem get_by_filename_add (apps : List InstalledApp) (r : InstalledApp)
    (h : ∀ a ∈ apps, pathName a.install_path = pathName r.install_path →
      a.install_path = r.install_path) :
    get_by_filename (add apps r) (pathName r.install_path) = some r := by
  rw [get_by_filename, add, List.find?_append]
  have hnone : (apps.filter (fun a => a.install_path != r.install_path)).find?
      (fun app => pathName app.install_path == pathName r.install_path) = none := by
    rw [List.find?_eq_none]
    intro a ha hbeq
    have hmem := List.mem_of_mem_filter ha
    have hne := List.of_mem_filter ha
    simp only [bne_iff_ne, ne_eq] at hne
    exact hne (h a hmem (by simpa using hbeq))
  rw [hnone]
  simp

/-- C7 witness: the amended round trip at a concrete record over the empty
ledger. -/
theorem get_by_filename_add_witness :
    get_by_filename
      (add [] ⟨"B", "1", "/src/b", "/opt/apps/foo.AppImage", "b", [],
        "2024-02-01T00:00:00", none, none⟩)
      (pathName "/opt/apps/foo.AppImage") =
    some ⟨"B", "1", "/src/b", "/opt/apps/foo.AppImage", "b", [],
      "2024-02-01T00:00:00", none, none⟩ :=
  get_by_filename_add []
    ⟨"B", "1", "/src/b", "/opt/apps/foo.AppImage", "b", [],
      "2024-02-01T00:00:00", none, none⟩ (by simp)

/-- C5. Category parsing splits on the semicolon, strips every segment,
drops the segments that are empty after stripping and keeps the rest in
order; on the spec's example it yields exactly `["A", "B", "C"]`. -/
theorem parseCategories_spec (s : String) :
    parseCategories s =
      ((pySplit ';' s).map pyStrip).filter (fun c => c != "") ∧
    parseCategories "A;B;;C;" = ["A", "B", "C"] := by
  constructor
  · rw [parseCategories, List.filter_map]
    rfl
  · decide

/-- C2. With a `Name` key the parsed name is the `Name` value, but with the
key absent the parsed name is the empty string, not the filename stem: the
stem fallback written in `parse` is dead because `_parse_desktop_file`
already substituted `""`. -/
theorem parseInfoName_missing_name :
    parseInfoName [("Name", "Krita"), ("Exec", "krita")] "krita-5" = "Krita" ∧
    parseInfoName [("Exec", "run")] "myapp" = "" ∧
    parseInfoName [("Exec", "run")] "myapp" ≠ "myapp" := by
  refine ⟨rfl, rfl, ?_⟩
  decide

/-- C8 fails as stated: when the execute bit cannot be set the operation
does fail, but not with a `PermissionError`. -/
theorem extract_permission_counterexample :
    extractAppimage ⟨false, true, "denied", 0, ""⟩ =
      Except.error (PyErr.runtimeError "Cannot make AppImage executable: denied") ∧
    raisesPermissionError (extractAppimage ⟨false, true, "denied", 0, ""⟩) = false := by
  exact ⟨rfl, rfl⟩

/-- C8 amended: when the bundle is not executable and setting the bit fails,
extraction fails with a `RuntimeError` wrapping the permission message. -/
theorem extract_chmod_failure_runtime_error (env : ExtractEnv)
    (h1 : env.isExecutable = false) (h2 : env.chmodPermissionDenied = true) :
    extractAppimage env =
      Except.error (PyErr.runtimeError
        ("Cannot make AppImage executable: " ++ env.chmodMsg)) := by
  rw [extractAppimage, h1, h2]
  rfl

/-- C8 witness: the amended failure at a concrete environment. -/
theorem extract_chmod_failure_runtime_error_witness :
    extractAppimage ⟨false, true, "denied", 0, ""⟩ =
      Except.error (PyErr.runtimeError
        ("Cannot make AppImage executable: " ++ "denied")) :=
  extract_chmod_failure_runtime_error ⟨false, true, "denied", 0, ""⟩ rfl rfl

/-- C4. For a completed probe, whatever the exit code: a diagnostic stream
containing `"sandbox"` makes the written `Exec=` line end in the appended
`--no-sandbox` flag, and a diagnostic stream containing none of the three
(case-insensitive) markers leaves the quoted path unflagged. -/
theorem sandbox_flag_injection (returncode : Int) (stderr quotedPath : String) :
    ("sandbox".data <:+: stderr.data →
      execLine quotedPath (.completed returncode stderr) =
        "Exec=" ++ (quotedPath ++ " --no-sandbox")) ∧
    (¬ "sandbox".data <:+: (pyLower stderr).data →
     ¬ "setuid".data <:+: (pyLower stderr).data →
     ¬ "namespace".data <:+: (pyLower stderr).data →
      execLine quotedPath (.completed returncode stderr) = "Exec=" ++ quotedPath) := by
  constructor
  · intro h
    have hlow : "sandbox".data <:+: (pyLower stderr).data :=
      pyLower_infix_of_lower_closed (by decide) h
    have hc : strContains (pyLower stderr) "sandbox" = true := by
      rw [strContains]
      exact decide_eq_true hlow
    rw [execLine, execField, isElectronApp]
    simp [hc]
  · intro h1 h2 h3
    have c1 : strContains (pyLower stderr) "sandbox" = false := by
      rw [strContains]; exact decide_eq_false h1
    have c2 : strContains (pyLower stderr) "setuid" = false := by
      rw [strContains]; exact decide_eq_false h2
    have c3 : strContains (pyLower stderr) "namespace" = false := by
      rw [strContains]; exact decide_eq_false h3
    rw [execLine, execField, isElectronApp]
    simp [c1, c2, c3]

/-- C4 witness: a sandbox-complaining probe gets the flag appended and a
clean probe does not, at concrete diagnostics. -/
theorem sandbox_flag_injection_witness :
    execLine "/home/u/Applications/x.AppImage"
        (.completed 1 "No usable sandbox!") =
      "Exec=" ++ ("/home/u/Applications/x.AppImage" ++ " --no-sandbox") ∧
    execLine "/home/u/Applications/x.AppImage" (.completed 0 "version 5.2.1") =
      "Exec=" ++ "/home/u/Applications/x.AppImage" :=
  ⟨(sandbox_flag_injection 1 "No usable sandbox!" _).1 (by decide),
   (sandbox_flag_injection 0 "version 5.2.1" _).2
     (by decide) (by decide) (by decide)⟩

/-- C3 fails as stated: a backing file whose content is the well-formed but
structurally wrong document `[]` makes the load raise an `AttributeError`
instead of resetting to an empty ledger. -/
theorem load_registry_raises_counterexample :
    loadRegistry (some (JValue.arr [])) = Except.error PyExc.attributeError := rfl

/-- C3 amended: a decode failure resets the ledger to empty, and so does any
error met below a top-level JSON object (those surface as `TypeError`); but
a top-level value that is not an object escapes the handler and raises an
`AttributeError` to the caller. -/
theorem load_registry_corruption :
    loadRegistry none = Except.ok [] ∧
    (∀ (fields : List (String × JValue)) (e : PyExc),
      loadRegistryRaw (some (JValue.obj fields)) = Except.error e →
      loadRegistry (some (JValue.obj fields)) = Except.ok []) ∧
    (∀ v : JValue, (∀ fields, v ≠ JValue.obj fields) →
      loadRegistry (some v) = Except.error PyExc.attributeError) := by
  refine ⟨rfl, ?_, ?_⟩
  · intro fields e h
    have he := loadRegistryRaw_obj_error_typeError h
    rw [loadRegistry, h, he]
  · intro v hv
    cases v with
    | null => rfl
    | bool b => rfl
    | num n => rfl
    | str s => rfl
    | arr xs => rfl
    | obj fields => exact absurd rfl (hv fields)

/-- C3 witness: the amended behaviour at concrete documents — an object
whose `apps` value is not iterable loads as empty, and a top-level string
raises. -/
theorem load_registry_corruption_witness :
    loadRegistry (some (JValue.obj [("apps", JValue.num 3)])) = Except.ok [] ∧
    loadRegistry (some (JValue.str "oops")) = Except.error PyExc.attributeError :=
  ⟨load_registry_corruption.2.1 [("apps", JValue.num 3)] PyExc.typeError rfl,
   load_registry_corruption.2.2 (JValue.str "oops") (fun fields h => by cases h)⟩

end Appimgdmg
